import Mathlib

/-!
Verification of the CSV/Excel HR ingestion pipeline of this repository.

The development shallowly embeds the Python sources:
  * utils/csv_cleaner.py        (PersonDataPipeline.split_name, clean_email)
  * utils/faculty_details.py    (FacultyDataPipeline.clean_email, identical body)
  * utils/qualification_details.py (QualificationDataPipeline.extract_qualifications)
  * csv_upload_router.py        (handle_designations, handle_persons,
                                 handle_faculty, handle_qualifications, upload_csv)

Python strings are modelled as lists of characters ( `Str` ).  Python `None`
is `Option.none`; pandas `NaN` cells were already converted to `None` by the
router before the database phase ( `combined_df.astype(object).where(...)` ),
so cells are modelled as `Option Str`.  Python string helpers ( `strip` ,
`lower` , `split` ) are modelled for the ASCII fragment, which covers every
value the pipeline configuration and the claims exercise.
-/

set_option autoImplicit false

namespace HrCsv

/-- Python strings, modelled as lists of characters. -/
abbrev Str := List Char

/-- ASCII whitespace recognised by Python `str.strip` / `str.split` . -/
def isPySpace (c : Char) : Bool :=
  c = ' ' ∨ c = '\t' ∨ c = '\n' ∨ c = '\r' ∨ c = '\x0b' ∨ c = '\x0c'

/-- Python `str.strip()` : drop leading and trailing whitespace. -/
def pyStrip (s : Str) : Str :=
  ((s.dropWhile isPySpace).reverse.dropWhile isPySpace).reverse

/-- Python `str.lower()` (ASCII fragment). -/
def pyLower (s : Str) : Str :=
  s.map Char.toLower

/-- Split a string at every character satisfying `p` , keeping empty pieces,
exactly like `re.split` on a character class. -/
def splitPred (p : Char → Bool) : Str → List Str
  | [] => [[]]
  | c :: rest =>
    match splitPred p rest with
    | [] => if p c then [[], []] else [[c]]
    | h :: t => if p c then [] :: h :: t else (c :: h) :: t

/-- The separator class `[;,/]` used by `re.split` in `clean_email` . -/
def isEmailSep (c : Char) : Bool :=
  c = ';' ∨ c = ',' ∨ c = '/'

/-- Model of `re.split(r'[;,/]', s)` . -/
def splitSeps (s : Str) : List Str :=
  splitPred isEmailSep s

/-- Python `str.split()` with no argument: split on whitespace runs and drop
empty pieces. -/
def pySplitWs (s : Str) : List Str :=
  (splitPred isPySpace s).filter (fun w => w ≠ [])

/-- Substring test: Python `needle in haystack` . -/
def containsSub (needle hay : Str) : Bool :=
  (List.range (hay.length + 1)).any (fun i => needle.isPrefixOf (hay.drop i))

/-- Parse an unsigned decimal digit string. -/
def parseDigits (s : Str) : Option Nat :=
  if s ≠ [] ∧ s.all Char.isDigit then
    some (s.foldl (fun a c => a * 10 + (c.toNat - 48)) 0)
  else
    none

/-- Model of the Python builtin `int(s)` on a string: optional sign around a
nonempty digit string, surrounding whitespace ignored.  (Underscore digit
separators, accepted by CPython, are not modelled; no pipeline value or claim
uses them.) -/
def pyParseInt (s : Str) : Option Int :=
  match pyStrip s with
  | '-' :: rest => (parseDigits rest).map (fun n => -(n : Int))
  | '+' :: rest => (parseDigits rest).map (fun n => (n : Int))
  | t => (parseDigits t).map (fun n => (n : Int))

/-- The separator `", "` used to rejoin cleaned email parts. -/
def commaSpace : Str := ", ".data

/-- Join a list of words with single spaces, Python `' '.join` . -/
def joinSpace (ws : List Str) : Str :=
  List.intercalate [' '] ws

/-- The sentinel string `"N/A"` . -/
def naStr : Str := "N/A".data

/--
`PersonDataPipeline.clean_email` (utils/csv_cleaner.py lines 198 to 213); the
body of `FacultyDataPipeline.clean_email` (utils/faculty_details.py lines 83
to 87) is character for character the same:

    if pd.isnull(email): return None
    parts = [e.strip().lower() for e in re.split(r'[;,/]', str(email)) if e.strip()]
    return ', '.join(parts) if parts else None
-/
def clean_email : Option Str → Option Str
  | none => none
  | some s =>
    let parts := (splitSeps s).filterMap
      (fun e => if pyStrip e = [] then none else some (pyLower (pyStrip e)))
    if parts = [] then none else some (List.intercalate commaSpace parts)

/-- The regular expression `^[A-Z]\.$` of `split_name` : an ASCII capital
letter followed by a dot, nothing else. -/
def isInitialTok (p : Str) : Bool :=
  match p with
  | [c, d] => ( 'A' ≤ c ∧ c ≤ 'Z' ) ∧ d = '.'
  | _ => false

/-- Python `part.endswith('.')` . -/
def endsWithDot (p : Str) : Bool :=
  p.getLast? = some '.'

/--
The token loop of `PersonDataPipeline.split_name` for three or more tokens
(utils/csv_cleaner.py lines 161 to 178).  The state is the list of tokens not
yet examined, the current index `i` , and the accumulated first name parts;
the result is the pair (first name parts, last name parts), where the second
component is `parts[i:]` when the loop breaks and `[]` when it runs out.
-/
def snLoop : List Str → Nat → List Str → List Str × List Str
  | [], _, first => (first, [])
  | p :: rest, i, first =>
    if isInitialTok p ∨ (i = 0 ∧ p.length = 1) then
      snLoop rest (i + 1) (first ++ [p])
    else if i = 0 ∧ p.length > 1 ∧ endsWithDot p then
      snLoop rest (i + 1) (first ++ [p])
    else if first = [] then
      snLoop rest (i + 1) (first ++ [p])
    else if first.length < 2 then
      snLoop rest (i + 1) (first ++ [p])
    else
      (first, p :: rest)

/--
`PersonDataPipeline.split_name` (utils/csv_cleaner.py lines 135 to 196).
`None` input gives (None, None); otherwise the name is stripped and split on
whitespace: zero tokens give (None, None), one token gives (token, "N/A"),
two tokens split directly, and three or more run the initials-aware loop
`snLoop` , with a fallback to (all but last joined, last token) when the loop
assigned every token to the first name.
-/
def split_name : Option Str → Option Str × Option Str
  | none => (none, none)
  | some s =>
    match pySplitWs (pyStrip s) with
    | [] => (none, none)
    | [t] => (some t, some naStr)
    | [t, u] => (some t, some u)
    | p0 :: p1 :: p2 :: rest =>
      let parts := p0 :: p1 :: p2 :: rest
      let fl := snLoop parts 0 []
      if fl.2 = [] then
        (some (joinSpace parts.dropLast), some (parts.getLast (by simp)))
      else
        (some (joinSpace fl.1), some (joinSpace fl.2))

/-! ### Qualification extraction (utils/qualification_details.py) -/

/-- A source row: the ordered association of column names to cell values,
`row.index` with `row[col]` .  A `none` cell models a pandas `NaN` . -/
abbrev Row := List (Str × Option Str)

/-- Cell access `row[col]` , first column of that name. -/
def rowLookup (row : Row) (c : Str) : Option Str :=
  match row.find? (fun p => p.1 = c) with
  | some p => p.2
  | none => none

/-- The emptiness test used throughout the extractor:
`pd.isna(value) or value == "" or value == "N/A"` ; returns the value when it
is considered non-empty. -/
def cellVal (v : Option Str) : Option Str :=
  match v with
  | none => none
  | some s => if s = [] ∨ s = naStr then none else some s

/-- Column names whose lowercase form contains one of the given keywords. -/
def keywordCols (keys : List Str) (row : Row) : List Str :=
  (row.map Prod.fst).filter (fun c => keys.any (fun k => containsSub k (pyLower c)))

/-- Keyword set for qualification title columns. -/
def degreeKeys : List Str := [ "degree".data, "qualification".data, "education".data]

/-- Keyword set for field-of-study columns. -/
def fieldKeys : List Str :=
  [ "field".data, "major".data, "subject".data, "specialization".data]

/-- Keyword set for institution columns. -/
def institutionKeys : List Str :=
  [ "institution".data, "university".data, "college".data, "school".data]

/-- Keyword set for country columns. -/
def countryKeys : List Str := [ "country".data, "nation".data]

/-- Keyword set for year columns. -/
def yearKeys : List Str :=
  [ "year".data, "date".data, "completion".data, "graduation".data]

/-- The dynamically discovered `degree_columns` of `extract_qualifications` :
every column whose lowercase name contains degree, qualification or
education. -/
def degree_columns (row : Row) : List Str :=
  keywordCols degreeKeys row

/-- First non-empty value among the columns matching the given keywords, the
shared shape of `_extract_institution` and `_extract_country` . -/
def firstNonEmptyIn (keys : List Str) (row : Row) : Option Str :=
  (keywordCols keys row).findSome? (fun c => cellVal (rowLookup row c))

/-- Model of `str(value).split(" in ")` : split on the four-character
separator, non-overlapping and left to right. -/
def splitOnIn : Str → List Str
  | [] => [[]]
  | ' ' :: 'i' :: 'n' :: ' ' :: rest => [] :: splitOnIn rest
  | c :: rest =>
    match splitOnIn rest with
    | [] => [[c]]
    | h :: t => (c :: h) :: t

/-- `QualificationDataPipeline._extract_field` : first non-empty field-like
column, else the part after the first `" in "` of the degree value. -/
def extractField (degree : Str) (row : Row) : Option Str :=
  match firstNonEmptyIn fieldKeys row with
  | some v => some v
  | none =>
    let parts := splitOnIn degree
    if parts.length > 1 then parts.get? 1 else none

/-- `QualificationDataPipeline._extract_institution` . -/
def extractInstitution (row : Row) : Option Str :=
  firstNonEmptyIn institutionKeys row

/-- `QualificationDataPipeline._extract_country` . -/
def extractCountry (row : Row) : Option Str :=
  firstNonEmptyIn countryKeys row

/-- Model of `re.findall(r'(19|20)\d{2}', s)` followed by `int(matches[0])` :
the leftmost position where 19 or 20 is followed by two digits contributes
the captured group, which is the two-character prefix, so the result is the
integer 19 or 20, never a four-digit year. -/
def yearGroupAt : Str → Option Int
  | '1' :: '9' :: a :: b :: _ => if a.isDigit ∧ b.isDigit then some 19 else none
  | '2' :: '0' :: a :: b :: _ => if a.isDigit ∧ b.isDigit then some 20 else none
  | _ => none

/-- Leftmost match of the year pattern. -/
def findYearGroup : Str → Option Int
  | [] => none
  | c :: rest =>
    match yearGroupAt (c :: rest) with
    | some n => some n
    | none => findYearGroup rest

/-- `QualificationDataPipeline._extract_year` : the first year-like column
whose non-empty value contains a match of the pattern; columns without a
match are passed over. -/
def extractYear (row : Row) : Option Int :=
  (keywordCols yearKeys row).findSome? (fun c => (cellVal (rowLookup row c)).bind findYearGroup)

/-- The dictionary built by `extract_qualifications` for one non-empty degree
column.  Its keys are person_id, degree, field_of_study, institution,
country and year_completed; there is no category key and no title key. -/
structure QualRecordPy where
  person_id : Nat
  degree : Str
  field_of_study : Option Str
  institution : Option Str
  country : Option Str
  year_completed : Option Int
deriving DecidableEq, Repr

/-- The record built for the value `v` of one degree column of `row` . -/
def mkQualRecord (row : Row) (pid : Nat) (v : Str) : QualRecordPy :=
  { person_id := pid
    degree := v
    field_of_study := extractField v row
    institution := extractInstitution row
    country := extractCountry row
    year_completed := extractYear row }

/-- The column loop of `extract_qualifications` . -/
def extractQualsGo (row : Row) (pid : Nat) : List Str → List QualRecordPy
  | [] => []
  | c :: cs =>
    match cellVal (rowLookup row c) with
    | none => extractQualsGo row pid cs
    | some v => mkQualRecord row pid v :: extractQualsGo row pid cs

/-- `QualificationDataPipeline.extract_qualifications`
(utils/qualification_details.py lines 27 to 71): one record per degree-like
column with a non-empty value; empty, NaN and `"N/A"` cells are skipped. -/
def extract_qualifications (row : Row) (pid : Nat) : List QualRecordPy :=
  extractQualsGo row pid (degree_columns row)

/-! ### Storage model (models/person_model.py, faculty_model.py,
designation_model.py, education_model.py)

Only the columns the upload router reads or writes are modelled.  Unique
constraints carried by the schema: Person.cnic, Faculty.code,
Faculty.university_email (several NULLs allowed), Designation.title. -/

/-- `DesignationType` of models/designation_model.py. -/
inductive DType where
  | academic
  | administrative
deriving DecidableEq, Repr

/-- A stored `designation` row. -/
structure DesignationRow where
  id : Nat
  title : Str
  dtype : DType
deriving DecidableEq, Repr

/-- A stored `person` row (the modelled columns).  The bulk
`pg_insert(Person.__table__)` of the router writes the cnic column directly,
bypassing the Fernet encryption property, so the stored cnic is the raw
string from the file. -/
structure PersonRow where
  id : Nat
  email : Option Str
  cnic : Option Str
deriving DecidableEq, Repr

/-- A stored `faculty` row (the modelled columns). -/
structure FacultyRow where
  code : Int
  universityEmail : Option Str
  personId : Nat
  designationId : Option Nat
deriving DecidableEq, Repr

/-- A stored `qualification` row (the modelled columns). -/
structure QualRow where
  personId : Nat
  title : Str
deriving DecidableEq, Repr

/-- The database state seen by one import, together with the id sequences
used when rows are flushed or inserted. -/
structure DB where
  persons : List PersonRow
  faculties : List FacultyRow
  designations : List DesignationRow
  quals : List QualRow
  nextPid : Nat
  nextDid : Nat
deriving DecidableEq, Repr

/-- An empty database. -/
def dbEmpty : DB :=
  { persons := [], faculties := [], designations := [], quals := []
    nextPid := 1, nextDid := 1 }

/-- A cell of the combined dataframe `code` column: after the faculty
pipeline it is either an integer, a leftover string such as `"N/A"` , or
missing. -/
inductive PyCell where
  | none
  | intv (n : Int)
  | strv (s : Str)
deriving DecidableEq, Repr

/-- One row of `combined_df` as consumed by the database handlers of
csv_upload_router.py: the person email and cnic, the faculty university
email and code, and the academic designation title.  The remaining columns
are copied verbatim into the insert dictionaries and never branch the
control flow, so they are not modelled. -/
structure CombinedRow where
  email : Option Str
  cnic : Option Str
  university_email : Option Str
  code : PyCell
  academic_designation : Option Str
deriving DecidableEq, Repr

/-- Python truthiness of an optional string: `None` and the empty string are
falsy. -/
def truthyS (v : Option Str) : Bool :=
  match v with
  | none => false
  | some s => s ≠ []

/-- Python dict insertion for string keys: overwrite in place or append. -/
def dictInsert {α : Type} : List (Str × α) → Str → α → List (Str × α)
  | [], k, v => [(k, v)]
  | (k0, v0) :: rest, k, v =>
    if k0 = k then (k, v) :: rest else (k0, v0) :: dictInsert rest k v

/-- Python dict lookup (keys are unique by construction of `dictInsert` ). -/
def dictLookup {α : Type} : List (Str × α) → Str → Option α
  | [], _ => none
  | (k0, v0) :: rest, k => if k0 = k then some v0 else dictLookup rest k

/-! ### handle_designations (csv_upload_router.py lines 200 to 229) -/

/-- `pandas.Series.unique` : deduplicate keeping first occurrences. -/
def dedupAux (seen : List Str) : List Str → List Str
  | [] => []
  | t :: rest => if t ∈ seen then dedupAux seen rest else t :: dedupAux (t :: seen) rest

/-- `combined_df['academic_designation'].dropna().unique().tolist()` . -/
def batchTitles (rows : List CombinedRow) : List Str :=
  dedupAux [] (rows.filterMap (fun r => r.academic_designation))

/-- New designation rows for the given titles, with the sequential ids the
`session.flush()` assigns. -/
def mkDesigRows (did : Nat) : List Str → List DesignationRow
  | [] => []
  | t :: ts => { id := did, title := t, dtype := DType.academic } :: mkDesigRows (did + 1) ts

/-- The stored designations whose title occurs in the batch
(`select(Designation).where(Designation.title.in_(designation_titles))` ). -/
def desigExisting (db : DB) (rows : List CombinedRow) : List DesignationRow :=
  db.designations.filter (fun d => d.title ∈ batchTitles rows)

/-- `existing_designations = {d.title: d for d in result}` . -/
def desigCacheE (db : DB) (rows : List CombinedRow) : List (Str × DesignationRow) :=
  (desigExisting db rows).foldl (fun m d => dictInsert m d.title d) []

/-- `new_titles = [t for t in designation_titles if t not in
existing_designations]` . -/
def desigNewTitles (db : DB) (rows : List CombinedRow) : List Str :=
  (batchTitles rows).filter (fun t => dictLookup (desigCacheE db rows) t = none)

/-- The designation rows created for the missing titles, with the ids the
flush assigns. -/
def desigNewRows (db : DB) (rows : List CombinedRow) : List DesignationRow :=
  mkDesigRows db.nextDid (desigNewTitles db rows)

/-- `handle_designations` : fetch the stored designations whose title occurs
in the batch, create the missing titles (all with type academic), flush them,
and return the title-keyed cache together with the updated database. -/
def handle_designations (db : DB) (rows : List CombinedRow) :
    List (Str × DesignationRow) × DB :=
  if batchTitles rows = [] then ([], db)
  else
    ((desigNewRows db rows).foldl (fun m d => dictInsert m d.title d)
        (desigCacheE db rows),
     { db with
       designations := db.designations ++ desigNewRows db rows
       nextDid := db.nextDid + (desigNewRows db rows).length })

/-- The number of stored designation rows carrying a given title. -/
def countTitle (db : DB) (t : Str) : Nat :=
  (db.designations.filter (fun d => d.title = t)).length

/-! ### handle_persons (csv_upload_router.py lines 232 to 282) -/

/-- Errors surfaced by the import.  `handle_persons` and `handle_faculty`
wrap every exception, the database `IntegrityError` included, into a
`CSVUploadError` carrying an HTTP status (`except Exception as e: raise
CSVUploadError(..., 500)` ); `upload_csv` turns it into an error response of
that status. -/
inductive ImpError where
  | csvErr (status : Nat)
deriving DecidableEq, Repr

/-- The HTTP status carried by an import error. -/
def ImpError.status : ImpError → Nat
  | .csvErr s => s

/-- Whether some row of a person table has the given email. -/
def hasEmailIn (ps : List PersonRow) (e : Str) : Prop :=
  ∃ p ∈ ps, p.email = some e

instance (ps : List PersonRow) (e : Str) : Decidable (hasEmailIn ps e) := by
  unfold hasEmailIn; infer_instance

/-- Whether some row of a person table has the given cnic. -/
def hasCnicIn (ps : List PersonRow) (c : Str) : Prop :=
  ∃ p ∈ ps, p.cnic = some c

instance (ps : List PersonRow) (c : Str) : Decidable (hasCnicIn ps c) := by
  unfold hasCnicIn; infer_instance

/-- Whether some stored person has the given email
(`select(Person.email).where(Person.email.in_(person_emails))` restricted to
the emails actually tested). -/
def dbHasPersonEmail (db : DB) (e : Str) : Prop :=
  hasEmailIn db.persons e

instance (db : DB) (e : Str) : Decidable (dbHasPersonEmail db e) := by
  unfold dbHasPersonEmail; infer_instance

/-- Whether some stored person has the given cnic. -/
def dbHasPersonCnic (db : DB) (c : Str) : Prop :=
  hasCnicIn db.persons c

instance (db : DB) (c : Str) : Decidable (dbHasPersonCnic db c) := by
  unfold dbHasPersonCnic; infer_instance

/-- The rows kept by the candidate loop of `handle_persons` : rows whose
email cell is truthy (`if not row.get('email'): continue` ). -/
def personCands (rows : List CombinedRow) : List CombinedRow :=
  rows.filter (fun r => truthyS r.email)

/-- The email key of a candidate (always present for candidates). -/
def emailKey (r : CombinedRow) : Str :=
  r.email.getD []

/-- The staging filter of `handle_persons` over an explicit person table:
candidates whose email is not already stored. -/
def stagedPersonsL (ps : List PersonRow) (rows : List CombinedRow) : List CombinedRow :=
  (personCands rows).filter (fun r => ¬ hasEmailIn ps (emailKey r))

/-- `new_persons` : candidates whose email is not already stored.  There is
no in-batch deduplication and the cnic is never consulted. -/
def stagedPersons (db : DB) (rows : List CombinedRow) : List CombinedRow :=
  stagedPersonsL db.persons rows

/-- The cnic unique-constraint check over an explicit person table. -/
def cnicViolationL (ps : List PersonRow) (news : List CombinedRow) : Prop :=
  ¬ (news.filterMap (fun r => r.cnic)).Nodup
    ∨ ∃ r ∈ news, ∃ c, r.cnic = some c ∧ hasCnicIn ps c

instance (ps : List PersonRow) (news : List CombinedRow) :
    Decidable (cnicViolationL ps news) := by
  unfold cnicViolationL; infer_instance

/-- The condition under which the bulk person insert raises the database
`IntegrityError` : a duplicate among the non-null cnic values of the new rows
or a collision with a stored cnic (person.cnic is unique). -/
def cnicViolation (db : DB) (news : List CombinedRow) : Prop :=
  cnicViolationL db.persons news

instance (db : DB) (news : List CombinedRow) : Decidable (cnicViolation db news) := by
  unfold cnicViolation; infer_instance

/-- New person rows with the sequential ids the insert assigns. -/
def mkPersonRows (pid : Nat) : List CombinedRow → List PersonRow
  | [] => []
  | r :: rest => { id := pid, email := r.email, cnic := r.cnic } :: mkPersonRows (pid + 1) rest

/-- Append the staged person rows to the database. -/
def insertPersons (db : DB) (news : List CombinedRow) : DB :=
  { db with
    persons := db.persons ++ mkPersonRows db.nextPid news
    nextPid := db.nextPid + news.length }

/-- The emails of the person candidates, used by the final id-map select. -/
def candEmails (rows : List CombinedRow) : List Str :=
  (personCands rows).filterMap (fun r => r.email)

/-- `{row.email: row.id for row in result}` over
`select(Person.id, Person.email).where(Person.email.in_(person_emails))` :
scan the stored persons in order and let later rows overwrite earlier ones,
as the Python dict comprehension does. -/
def buildPersonIdMap (db : DB) (emails : List Str) : List (Str × Nat) :=
  db.persons.foldl
    (fun m p =>
      match p.email with
      | some e => if e ∈ emails then dictInsert m e p.id else m
      | none => m)
    []

/-- `handle_persons` : keep rows with a truthy email, raise a 400
`CSVUploadError` when none remain, skip candidates whose email is already
stored, bulk-insert the rest (an `IntegrityError` from the cnic unique
constraint is wrapped into a 500 `CSVUploadError` ), and return the email to
id map built from the stored rows. -/
def handle_persons (db : DB) (rows : List CombinedRow) :
    Except ImpError (List (Str × Nat) × DB) :=
  if personCands rows = [] then Except.error (ImpError.csvErr 400)
  else if cnicViolation db (stagedPersons db rows) then Except.error (ImpError.csvErr 500)
  else
    let db2 := insertPersons db (stagedPersons db rows)
    Except.ok (buildPersonIdMap db2 (candEmails rows), db2)

/-! ### handle_faculty (csv_upload_router.py lines 285 to 366) -/

/-- A faculty insert candidate as assembled by the row loop of
`handle_faculty` (the university email of a candidate is always a nonempty
string, rows without one were skipped). -/
structure FacCand where
  code : Int
  universityEmail : Str
  personId : Nat
  designationId : Option Nat
deriving DecidableEq, Repr

/--
The row loop body of `handle_faculty` (csv_upload_router.py lines 299 to
325): look the person id up by the person email, skip the row when the id or
the university email is falsy, resolve the designation through the cache,
and coerce the code: an unparseable or missing Code falls back to the person
id (lines 315 to 323).
-/
def build_fac_cand (pmap : List (Str × Nat)) (cache : List (Str × DesignationRow))
    (r : CombinedRow) : Option FacCand :=
  let pid? := match r.email with
    | some e => dictLookup pmap e
    | none => none
  match pid? with
  | none => none
  | some pid =>
    if pid = 0 then none
    else
      match r.university_email with
      | none => none
      | some ue =>
        if ue = [] then none
        else
          let code : Int := match r.code with
            | PyCell.none => (pid : Int)
            | PyCell.intv n => n
            | PyCell.strv s =>
              match pyParseInt s with
              | some n => n
              | none => (pid : Int)
          let did : Option Nat := match r.academic_designation with
            | some t => (dictLookup cache t).map (fun d => d.id)
            | none => none
          some { code := code, universityEmail := ue, personId := pid, designationId := did }

/-- `faculties_to_create` . -/
def facCandidates (rows : List CombinedRow) (pmap : List (Str × Nat))
    (cache : List (Str × DesignationRow)) : List FacCand :=
  rows.filterMap (build_fac_cand pmap cache)

/-- Whether some stored faculty row has the given university email. -/
def dbHasFacEmail (db : DB) (e : Str) : Prop :=
  ∃ f ∈ db.faculties, f.universityEmail = some e

instance (db : DB) (e : Str) : Decidable (dbHasFacEmail db e) := by
  unfold dbHasFacEmail; infer_instance

/-- Whether some stored faculty row has the given code. -/
def dbHasFacCode (db : DB) (c : Int) : Prop :=
  ∃ f ∈ db.faculties, f.code = c

instance (db : DB) (c : Int) : Decidable (dbHasFacCode db c) := by
  unfold dbHasFacCode; infer_instance

/-- `emails = [f['university_email'] for f in faculties_to_create if
f.get('university_email')]` : the truthy candidate emails. -/
def facEmailList (cands : List FacCand) : List Str :=
  (cands.map (fun f => f.universityEmail)).filter (fun e => e ≠ [])

/-- `codes = [f['code'] for f in faculties_to_create if f.get('code')]` : the
truthiness filter drops the integer 0. -/
def facCodeList (cands : List FacCand) : List Int :=
  (cands.map (fun f => f.code)).filter (fun c => c ≠ 0)

/-- The prefetched `existing_emails` : stored university emails restricted to
the candidate emails (the `in_` clause of the select). -/
def facInitE (db : DB) (cands : List FacCand) : List Str :=
  (facEmailList cands).filter (fun e => dbHasFacEmail db e)

/-- The prefetched `existing_codes` : stored codes restricted to the truthy
candidate codes, so a candidate code 0 is never found here even when a
stored row carries code 0. -/
def facInitC (db : DB) (cands : List FacCand) : List Int :=
  (facCodeList cands).filter (fun c => dbHasFacCode db c)

/-- The duplicate filter of `handle_faculty` (lines 349 to 356): accept a
candidate when neither its email nor its code is in the running sets, and
extend both sets on acceptance. -/
def facFold (es : List Str) (cs : List Int) : List FacCand → List FacCand
  | [] => []
  | f :: rest =>
    if f.universityEmail ∈ es ∨ f.code ∈ cs then facFold es cs rest
    else f :: facFold (f.universityEmail :: es) (f.code :: cs) rest

/-- `new_faculties` . -/
def newFaculties (db : DB) (cands : List FacCand) : List FacCand :=
  facFold (facInitE db cands) (facInitC db cands) cands

/-- The condition under which the bulk faculty insert raises the database
`IntegrityError` : a duplicate code or university email among the new rows or
against the stored rows. -/
def facultyViolation (db : DB) (newF : List FacCand) : Prop :=
  ¬ (newF.map (fun f => f.code)).Nodup
    ∨ ¬ (newF.map (fun f => f.universityEmail)).Nodup
    ∨ (∃ f ∈ newF, dbHasFacCode db f.code)
    ∨ (∃ f ∈ newF, dbHasFacEmail db f.universityEmail)

instance (db : DB) (newF : List FacCand) : Decidable (facultyViolation db newF) := by
  unfold facultyViolation; infer_instance

/-- Append the accepted faculty rows to the database. -/
def insertFaculties (db : DB) (newF : List FacCand) : DB :=
  { db with
    faculties := db.faculties ++ newF.map (fun f =>
      { code := f.code
        universityEmail := some f.universityEmail
        personId := f.personId
        designationId := f.designationId }) }

/-- `handle_faculty` : build the candidates, return 0 when there are none,
filter duplicates against the prefetched and the incrementally staged sets,
insert the rest (an `IntegrityError` is wrapped into a 500
`CSVUploadError` ), and return the number of inserted rows. -/
def handle_faculty (db : DB) (rows : List CombinedRow) (pmap : List (Str × Nat))
    (cache : List (Str × DesignationRow)) : Except ImpError (Nat × DB) :=
  let cands := facCandidates rows pmap cache
  if cands = [] then Except.ok (0, db)
  else
    let newF := newFaculties db cands
    if facultyViolation db newF then Except.error (ImpError.csvErr 500)
    else Except.ok (newF.length, insertFaculties db newF)

/-! ### handle_qualifications (csv_upload_router.py lines 369 to 424) -/

/-- A qualification dictionary as the qualification pipeline would hand it to
`handle_qualifications` ; `get` on a missing key yields `none` . -/
structure QualCand where
  person_id : Option Nat
  title : Option Str
deriving DecidableEq, Repr

/-- The outcome of the call
`qual_pipeline.process_pipeline(original_df, person_id_map)` : either the
call raises (in the shipped source it always does, because
`QualificationDataPipeline.process_pipeline` accepts a single argument, so
the two-argument call raises a `TypeError` ), or it returns a result whose
success flag and data list are given. -/
inductive QOutcome where
  | raise
  | ok (success : Bool) (data : List QualCand)
deriving DecidableEq, Repr

/-- Python truthiness of an optional natural number: `None` and 0 are
falsy. -/
def truthyN (v : Option Nat) : Bool :=
  match v with
  | none => false
  | some n => n ≠ 0

/-- Whether the pair of a candidate is among the stored qualification pairs
selected by the `or_` of the checked pairs. -/
def qualPairStored (db : DB) (qcd : List QualCand) (q : QualCand) : Prop :=
  ∃ pt ∈ db.quals, q.person_id = some pt.personId ∧ q.title = some pt.title
    ∧ ∃ q2 ∈ qcd, q2.person_id = some pt.personId ∧ q2.title = some pt.title

instance (db : DB) (qcd : List QualCand) (q : QualCand) :
    Decidable (qualPairStored db qcd q) := by
  unfold qualPairStored; infer_instance

/-- `handle_qualifications` : the whole body is wrapped in
`try ... except Exception: return 0` , so a raising pipeline call contributes
zero records and leaves the session untouched; otherwise records whose
(person_id, title) pair is already stored are dropped and the rest are
inserted. -/
def handle_qualifications (db : DB) (outcome : QOutcome) : Nat × DB :=
  match outcome with
  | QOutcome.raise => (0, db)
  | QOutcome.ok success data =>
    if success = false then (0, db)
    else if data = [] then (0, db)
    else
      let qcd := data.filter (fun q => truthyN q.person_id ∧ truthyS q.title)
      if qcd = [] then (0, db)
      else
        let newQ := data.filter (fun q => ¬ qualPairStored db qcd q)
        if newQ = [] then (0, db)
        else
          (newQ.length,
            { db with quals := db.quals ++ newQ.map (fun q =>
                { personId := q.person_id.getD 0, title := q.title.getD [] }) })

/-! ### upload_csv (csv_upload_router.py lines 443 to 507), database phase -/

/-- The response returned by `upload_csv` : either the 201 success payload
`{persons_processed, faculty_inserted, qualifications_inserted, total_rows}`
or an error response with an HTTP status.  No field of the success payload
counts skipped rows and no per-row reasons are reported. -/
inductive Response where
  | success (personsProcessed facultyInserted qualificationsInserted totalRows : Nat)
  | error (status : Nat)
deriving DecidableEq, Repr

/-- The sequential handler phase of `upload_csv` before qualifications:
designations, then persons, then faculty, threading the session state. -/
def stage_phase (db : DB) (rows : List CombinedRow) :
    Except ImpError (List (Str × Nat) × Nat × DB) :=
  let cd := handle_designations db rows
  match handle_persons cd.2 rows with
  | Except.error e => Except.error e
  | Except.ok (pmap, db3) =>
    match handle_faculty db3 rows pmap cd.1 with
    | Except.error e => Except.error e
    | Except.ok (fc, db4) => Except.ok (pmap, fc, db4)

/-- The database phase of the `upload_csv` endpoint: run the handlers inside
the single session transaction; on any `CSVUploadError` the session is
rolled back (the initial database state is kept) and an error response with
the carried status is returned; otherwise the qualification stage runs, the
session is committed, and the success payload reports
`len(person_id_map)` , the faculty count, the qualification count and the
row count. -/
def upload_csv (db : DB) (rows : List CombinedRow) (q : QOutcome) : Response × DB :=
  match stage_phase db rows with
  | Except.error e => (Response.error e.status, db)
  | Except.ok (pmap, fc, db3) =>
    let qres := handle_qualifications db3 q
    (Response.success pmap.length fc qres.1 rows.length, qres.2)

/-! ### Concrete instances used by counterexamples and witnesses -/

/-- A combined row with only an email and a cnic (no faculty columns). -/
def mkPRow (e c : Str) : CombinedRow :=
  { email := some e, cnic := some c, university_email := none
    code := PyCell.none, academic_designation := none }

/-- First row of the duplicate-cnic batch. -/
def c1row1 : CombinedRow := mkPRow "a".data "n1".data

/-- Second row of the duplicate-cnic batch: fresh email, same cnic. -/
def c1row2 : CombinedRow := mkPRow "b".data "n1".data

/-- A two-person batch whose rows share one cnic. -/
def c1rows : List CombinedRow := [c1row1, c1row2]

/-- The three-row scenario batch: row 2 duplicates the cnic of row 1 up to
surrounding whitespace ( `"123 "` versus `"123"` ). -/
def c3rows : List CombinedRow :=
  [mkPRow "a".data "123 ".data, mkPRow "b".data "123".data, mkPRow "c".data "456".data]

/-- A full combined row (person, faculty and designation columns). -/
def mkFRow (e c ue : Str) (cd : Int) (t : Str) : CombinedRow :=
  { email := some e, cnic := some c, university_email := some ue
    code := PyCell.intv cd, academic_designation := some t }

/-- A two-row batch exercising every entity, both rows sharing the
designation title. -/
def c4rows : List CombinedRow :=
  [mkFRow "a".data "x".data "fa".data 101 "P".data,
   mkFRow "b".data "y".data "fb".data 102 "P".data]

/-- A database holding one faculty row with code 0. -/
def c6db : DB :=
  { dbEmpty with
    faculties := [{ code := 0, universityEmail := some "old".data
                    personId := 1, designationId := none }] }

/-- A faculty candidate with code 0 and a fresh university email. -/
def c6cand : FacCand :=
  { code := 0, universityEmail := "new".data, personId := 2, designationId := none }

/-- A faculty candidate whose university email collides with the stored
row of `c6db` . -/
def c6cand2 : FacCand :=
  { code := 7, universityEmail := "old".data, personId := 2, designationId := none }

/-- The example row for the qualification extractor: two qualification
column groups, each with its own university column. -/
def c2row : Row :=
  [( "Qualification 1".data, some "BS".data),
   ( "University 1".data, some "UET".data),
   ( "Qualification 2".data, some "MS".data),
   ( "University 2".data, some "MIT".data)]

/-- A one-row batch for the qualification-containment witness. -/
def c9rows : List CombinedRow :=
  [{ email := some "a".data, cnic := some "n".data, university_email := some "f".data
     code := PyCell.intv 5, academic_designation := none }]

/-- A database holding one designation row titled `"T"` . -/
def c5db : DB :=
  { dbEmpty with designations := [{ id := 5, title := "T".data, dtype := DType.academic }] }

/-- A batch whose single row references the designation title `"T"` . -/
def c5rows : List CombinedRow :=
  [{ email := some "a".data, cnic := none, university_email := some "f".data
     code := PyCell.none, academic_designation := some "T".data }]

/-- A combined row whose Code cell is the unparseable leftover `"N/A"` . -/
def c10row : CombinedRow :=
  { email := some "a".data, cnic := none, university_email := some "f".data
    code := PyCell.strv naStr, academic_designation := none }

/-! ## Theorems -/

/-- The token loop always assigns the first two tokens to the first name;
when the third token is not an initial it breaks there, so everything from
the third token onward becomes the last name. -/
theorem snLoop_three (p0 p1 p2 : Str) (rest : List Str)
    (h2 : isInitialTok p2 = false) :
    snLoop (p0 :: p1 :: p2 :: rest) 0 [] = ([p0, p1], p2 :: rest) := by
  have s0 : snLoop (p0 :: p1 :: p2 :: rest) 0 [] = snLoop (p1 :: p2 :: rest) 1 [p0] := by
    rw [snLoop.eq_def]
    dsimp only
    split_ifs <;> first | rfl | simp_all
  have s1 : snLoop (p1 :: p2 :: rest) 1 [p0] = snLoop (p2 :: rest) 2 [p0, p1] := by
    rw [snLoop.eq_def]
    dsimp only
    split_ifs <;> first | rfl | simp_all
  have s2 : snLoop (p2 :: rest) 2 [p0, p1] = ([p0, p1], p2 :: rest) := by
    rw [snLoop.eq_def]
    dsimp only
    split_ifs <;> first | rfl | simp_all
  rw [s0, s1, s2]

/--
Claim C7: the name splitter returns both names null for 0 tokens, the token
and the `"N/A"` sentinel for 1 token, and a direct split for 2 tokens; for 3
or more tokens the claimed rule (first N-1 tokens joined, final token as last
name) only holds as amended: the first TWO tokens are joined as the first
name and every remaining token joins the last name, whenever the third token
is not an initial of the form `X.` .
-/
theorem c7_thm :
    split_name none = (none, none)
    ∧ (∀ s, pySplitWs (pyStrip s) = [] → split_name (some s) = (none, none))
    ∧ (∀ s t, pySplitWs (pyStrip s) = [t] →
        split_name (some s) = (some t, some naStr))
    ∧ (∀ s t u, pySplitWs (pyStrip s) = [t, u] →
        split_name (some s) = (some t, some u))
    ∧ (∀ s p0 p1 p2 rest, pySplitWs (pyStrip s) = p0 :: p1 :: p2 :: rest →
        isInitialTok p2 = false →
        split_name (some s)
          = (some (joinSpace [p0, p1]), some (joinSpace (p2 :: rest)))) := by
  refine ⟨rfl, ?_, ?_, ?_, ?_⟩
  · intro s hs; simp [split_name, hs]
  · intro s t hs; simp [split_name, hs]
  · intro s t u hs; simp [split_name, hs]
  · intro s p0 p1 p2 rest hs h2
    have e0 : snLoop (p0 :: p1 :: p2 :: rest) 0 [] = ([p0, p1], p2 :: rest) :=
      snLoop_three p0 p1 p2 rest h2
    simp [split_name, hs, e0]

/-- Claim C7 witness: the splitter at the concrete one-token input. -/
theorem c7_wit :
    split_name (some "Ali".data) = (some "Ali".data, some naStr) :=
  c7_thm.2.2.1 "Ali".data "Ali".data (by decide)

/--
Claim C7 counterexample: on the four-token name `"Muhammad Ali Raza Khan"`
the code returns first name `"Muhammad Ali"` and last name `"Raza Khan"` ,
not the claimed join of the first three tokens with `"Khan"` as last name.
-/
theorem c7_cex :
    split_name (some "Muhammad Ali Raza Khan".data)
      = (some "Muhammad Ali".data, some "Raza Khan".data)
    ∧ (some ( "Muhammad Ali".data : Str), some ( "Raza Khan".data : Str))
      ≠ (some "Muhammad Ali Raza".data, some "Khan".data) := by
  exact ⟨by decide, by decide⟩

/-- Lowercasing preserves emptiness. -/
theorem pyLower_eq_nil (t : Str) : pyLower t = [] ↔ t = [] := by
  simp [pyLower]

/-- Lowercasing the empty string. -/
theorem pyLower_nil : pyLower [] = [] := rfl

/-- The comprehension of `clean_email` equals mapping trim-then-lowercase
over the split pieces and then dropping the empty ones. -/
theorem cleanParts_eq (l : List Str) :
    l.filterMap (fun e => if pyStrip e = [] then none else some (pyLower (pyStrip e)))
      = (l.map (fun e => pyLower (pyStrip e))).filter (fun t => t ≠ []) := by
  induction l with
  | nil => rfl
  | cons e l ih =>
    by_cases h : pyStrip e = []
    · have h2 : pyLower (pyStrip e) = [] := by rw [h]; rfl
      simp [List.filterMap_cons, List.map_cons, List.filter_cons, h, h2, ih, pyLower_nil]
    · have h2 : ¬ pyLower (pyStrip e) = [] := fun hx => h ((pyLower_eq_nil _).mp hx)
      simp [List.filterMap_cons, List.map_cons, List.filter_cons, h, h2, ih]

/--
Claim C8: the email normalizer splits the cell on the separators `;` `,`
`/` , trims and lowercases each part, drops empty parts, rejoins the rest
with `", "` , and yields null when nothing remains; in particular
`"a@x.com; b@x.com"` normalizes to `"a@x.com, b@x.com"` .  The identical
body is shared by `PersonDataPipeline.clean_email` and
`FacultyDataPipeline.clean_email` .
-/
theorem c8_thm :
    clean_email none = none
    ∧ (∀ s, clean_email (some s)
        = (if ((splitSeps s).map (fun e => pyLower (pyStrip e))).filter
              (fun t => t ≠ []) = [] then none
           else some (List.intercalate commaSpace
              (((splitSeps s).map (fun e => pyLower (pyStrip e))).filter
                (fun t => t ≠ [])))))
    ∧ clean_email (some "a@x.com; b@x.com".data) = some "a@x.com, b@x.com".data := by
  refine ⟨rfl, ?_, by decide⟩
  intro s
  simp only [clean_email, cleanParts_eq]

/-- Per-column characterisation of the qualification extraction loop. -/
theorem extractQualsGo_spec (row : Row) (pid : Nat) (cols : List Str) :
    (extractQualsGo row pid cols).length
      = (cols.filter (fun c => (cellVal (rowLookup row c)).isSome)).length
    ∧ ∀ q ∈ extractQualsGo row pid cols,
        q.person_id = pid ∧ q.institution = extractInstitution row
          ∧ q.country = extractCountry row ∧ q.year_completed = extractYear row := by
  induction cols with
  | nil => exact ⟨rfl, by intro q hq; cases hq⟩
  | cons c cs ih =>
    cases h : cellVal (rowLookup row c) with
    | none =>
      refine ⟨?_, ?_⟩
      · simp [extractQualsGo, h, List.filter_cons, ih.1]
      · intro q hq
        rw [extractQualsGo, h] at hq
        exact ih.2 q hq
    | some v =>
      refine ⟨?_, ?_⟩
      · simp [extractQualsGo, h, List.filter_cons, ih.1]
      · intro q hq
        rw [extractQualsGo, h] at hq
        rcases List.mem_cons.mp hq with hq | hq
        · subst hq
          exact ⟨rfl, rfl, rfl, rfl⟩
        · exact ih.2 q hq

/--
Claim C2 (amended): qualification columns are discovered dynamically, not
from a static five-group configuration: every column whose lowercase name
contains degree, qualification or education contributes exactly one record
when its cell is non-empty (and none when the cell is missing, empty or
`"N/A"` ), and each emitted record carries the given person id and takes its
institution, country and year from the first matching column of the whole
row rather than from a per-group column; no category label is attached.
-/
theorem c2_thm (row : Row) (pid : Nat) :
    (extract_qualifications row pid).length
      = ((degree_columns row).filter (fun c => (cellVal (rowLookup row c)).isSome)).length
    ∧ ∀ q ∈ extract_qualifications row pid,
        q.person_id = pid ∧ q.institution = extractInstitution row
          ∧ q.country = extractCountry row ∧ q.year_completed = extractYear row :=
  extractQualsGo_spec row pid (degree_columns row)

/-- Claim C2 witness: the characterisation evaluated on the concrete
two-group row. -/
theorem c2_wit :
    (extract_qualifications c2row 7).length
      = ((degree_columns c2row).filter
          (fun c => (cellVal (rowLookup c2row c)).isSome)).length
    ∧ (mkQualRecord c2row 7 "BS".data).person_id = 7 :=
  ⟨(c2_thm c2row 7).1, ((c2_thm c2row 7).2 (mkQualRecord c2row 7 "BS".data) (by decide)).1⟩

/--
Claim C2 counterexample: on a row holding the first two configured groups
(Qualification 1 with University 1, Qualification 2 with University 2) the
code emits records without any category label whose institution field both
times carries the value of University 1, so the group-2 record does not
carry its group column values, contradicting the claimed per-group record
with a fixed category label.
-/
theorem c2_cex :
    extract_qualifications c2row 7
      = [{ person_id := 7, degree := "BS".data, field_of_study := none
           institution := some "UET".data, country := none, year_completed := none },
         { person_id := 7, degree := "MS".data, field_of_study := none
           institution := some "UET".data, country := none, year_completed := none }]
    ∧ (extract_qualifications c2row 7).map (fun q => q.institution)
        ≠ [some "UET".data, some "MIT".data] := by
  exact ⟨by decide, by decide⟩

/--
Claim C10: a faculty row whose source Code value is missing or cannot be
parsed as an integer is not rejected; the candidate is built with its code
silently set to the owning person database id.
-/
theorem c10_thm (pmap : List (Str × Nat)) (cache : List (Str × DesignationRow))
    (r : CombinedRow) (e ue : Str) (pid : Nat)
    (he : r.email = some e) (hp : dictLookup pmap e = some pid) (hp0 : pid ≠ 0)
    (hu : r.university_email = some ue) (hue : ue ≠ [])
    (hc : r.code = PyCell.none ∨ ∃ s, r.code = PyCell.strv s ∧ pyParseInt s = none) :
    ∃ f, build_fac_cand pmap cache r = some f
      ∧ f.code = (pid : Int) ∧ f.personId = pid := by
  rcases hc with hc | ⟨s, hc, hs⟩
  · have hb : build_fac_cand pmap cache r
        = some { code := (pid : Int), universityEmail := ue, personId := pid
                 designationId := match r.academic_designation with
                   | some t => (dictLookup cache t).map (fun d => d.id)
                   | none => none } := by
      simp [build_fac_cand, he, hp, hp0, hu, hue, hc]
    exact ⟨_, hb, rfl, rfl⟩
  · have hb : build_fac_cand pmap cache r
        = some { code := (pid : Int), universityEmail := ue, personId := pid
                 designationId := match r.academic_designation with
                   | some t => (dictLookup cache t).map (fun d => d.id)
                   | none => none } := by
      simp [build_fac_cand, he, hp, hp0, hu, hue, hc, hs]
    exact ⟨_, hb, rfl, rfl⟩

/-- Claim C10 witness: a concrete row whose Code cell is the string
`"N/A"` . -/
theorem c10_wit :
    ∃ f, build_fac_cand [( "a".data, 3)] [] c10row = some f
      ∧ f.code = ((3 : Nat) : Int) ∧ f.personId = 3 :=
  c10_thm [( "a".data, 3)] [] c10row "a".data "f".data 3
    (by decide) (by decide) (by decide) (by decide) (by decide)
    (Or.inr ⟨naStr, by decide, by decide⟩)

/-- An accepted faculty record is in neither of the sets the fold was
started with. -/
theorem facFold_not_mem_sets (l : List FacCand) :
    ∀ (es : List Str) (cs : List Int) (g : FacCand), g ∈ facFold es cs l →
      g.universityEmail ∉ es ∧ g.code ∉ cs := by
  induction l with
  | nil => intro es cs g hg; cases hg
  | cons f rest ih =>
    intro es cs g hg
    rw [facFold] at hg
    by_cases hc : f.universityEmail ∈ es ∨ f.code ∈ cs
    · rw [if_pos hc] at hg
      exact ih es cs g hg
    · rw [if_neg hc] at hg
      push_neg at hc
      rcases List.mem_cons.mp hg with hg | hg
      · subst hg; exact hc
      · have h2 := ih (f.universityEmail :: es) (f.code :: cs) g hg
        exact ⟨fun hx => h2.1 (List.mem_cons_of_mem _ hx),
               fun hx => h2.2 (List.mem_cons_of_mem _ hx)⟩

/-- The faculty duplicate filter yields pairwise distinct codes and pairwise
distinct university emails. -/
theorem facFold_pairwise (l : List FacCand) :
    ∀ (es : List Str) (cs : List Int),
      (facFold es cs l).Pairwise
        (fun f g => f.code ≠ g.code ∧ f.universityEmail ≠ g.universityEmail) := by
  induction l with
  | nil => intro es cs; exact List.Pairwise.nil
  | cons f rest ih =>
    intro es cs
    rw [facFold]
    by_cases hc : f.universityEmail ∈ es ∨ f.code ∈ cs
    · rw [if_pos hc]; exact ih es cs
    · rw [if_neg hc]
      refine List.Pairwise.cons ?_ (ih _ _)
      intro g hg
      have h2 := facFold_not_mem_sets rest (f.universityEmail :: es) (f.code :: cs) g hg
      exact ⟨fun hx => h2.2 (hx ▸ List.mem_cons_self _ _),
             fun hx => h2.1 (hx ▸ List.mem_cons_self _ _)⟩

/-- A candidate whose university email is in the starting email set is never
accepted by the fold. -/
theorem facFold_skip_email (l : List FacCand) :
    ∀ (es : List Str) (cs : List Int) (f : FacCand),
      f.universityEmail ∈ es → f ∉ facFold es cs l := by
  induction l with
  | nil => intro es cs f _ hf; cases hf
  | cons g rest ih =>
    intro es cs f hes hf
    rw [facFold] at hf
    by_cases hc : g.universityEmail ∈ es ∨ g.code ∈ cs
    · rw [if_pos hc] at hf
      exact ih es cs f hes hf
    · rw [if_neg hc] at hf
      push_neg at hc
      rcases List.mem_cons.mp hf with hf | hf
      · exact hc.1 (hf ▸ hes)
      · exact ih _ _ f (List.mem_cons_of_mem _ hes) hf

/-- A candidate whose code is in the starting code set is never accepted by
the fold. -/
theorem facFold_skip_code (l : List FacCand) :
    ∀ (es : List Str) (cs : List Int) (f : FacCand),
      f.code ∈ cs → f ∉ facFold es cs l := by
  induction l with
  | nil => intro es cs f _ hf; cases hf
  | cons g rest ih =>
    intro es cs f hcs hf
    rw [facFold] at hf
    by_cases hc : g.universityEmail ∈ es ∨ g.code ∈ cs
    · rw [if_pos hc] at hf
      exact ih es cs f hcs hf
    · rw [if_neg hc] at hf
      push_neg at hc
      rcases List.mem_cons.mp hf with hf | hf
      · exact hc.2 (hf ▸ hcs)
      · exact ih _ _ f (List.mem_cons_of_mem _ hcs) hf

/--
Claim C6 (amended): the staged faculty set extends its in-batch code and
email sets incrementally, so no two staged records share a code or a
university email; a candidate whose university email is stored is skipped,
and a candidate whose code is stored is skipped provided the code is not 0:
the stored-code prefetch list drops falsy values, so a candidate with code 0
escapes the stored-code check (see the counterexample).
-/
theorem c6_thm (db : DB) (cands : List FacCand) :
    ((newFaculties db cands).Pairwise
      (fun f g => f.code ≠ g.code ∧ f.universityEmail ≠ g.universityEmail))
    ∧ (∀ f ∈ cands, f.universityEmail ≠ [] → dbHasFacEmail db f.universityEmail →
        f ∉ newFaculties db cands)
    ∧ (∀ f ∈ cands, f.code ≠ 0 → dbHasFacCode db f.code →
        f ∉ newFaculties db cands) := by
  refine ⟨facFold_pairwise cands _ _, ?_, ?_⟩
  · intro f hf hne hdb
    have hes : f.universityEmail ∈ facInitE db cands := by
      simp only [facInitE, facEmailList, List.mem_filter, List.mem_map,
        decide_eq_true_eq]
      exact ⟨⟨⟨f, hf, rfl⟩, hne⟩, hdb⟩
    exact facFold_skip_email cands _ _ f hes
  · intro f hf hne hdb
    have hcs : f.code ∈ facInitC db cands := by
      simp only [facInitC, facCodeList, List.mem_filter, List.mem_map,
        decide_eq_true_eq]
      exact ⟨⟨⟨f, hf, rfl⟩, hne⟩, hdb⟩
    exact facFold_skip_code cands _ _ f hcs

/-- Claim C6 witness: a candidate whose university email collides with the
stored row is skipped. -/
theorem c6_wit : c6cand2 ∉ newFaculties c6db [c6cand2] :=
  (c6_thm c6db [c6cand2]).2.1 c6cand2 (by decide) (by decide) (by decide)

/--
Claim C6 counterexample: with a stored faculty row of code 0, a candidate
carrying code 0 and a fresh email is staged rather than skipped, because the
truthiness filter on the prefetched code list drops the integer 0; the claim
that a code collision with an existing stored value is always skipped fails
here.
-/
theorem c6_cex :
    newFaculties c6db [c6cand] = [c6cand] ∧ dbHasFacCode c6db c6cand.code := by
  exact ⟨by decide, by decide⟩

/--
Claim C3 (amended): a candidate Person record is skipped if and only if its
email cell is missing or empty or its email already exists in storage;
otherwise it is staged for insertion.  The cnic is never consulted, cnic
whitespace is not normalized and no skip reason is recorded: in the 3-row
scenario the second row, whose cnic duplicates row 1 only after trimming, is
staged like the others.
-/
theorem c3_thm :
    (∀ (db : DB) (rows : List CombinedRow) (r : CombinedRow), r ∈ rows →
      (r ∈ stagedPersons db rows
        ↔ truthyS r.email = true ∧ ¬ dbHasPersonEmail db (emailKey r)))
    ∧ mkPRow "b".data "123".data ∈ stagedPersons dbEmpty c3rows := by
  refine ⟨?_, by decide⟩
  intro db rows r hr
  constructor
  · intro hm
    simp only [stagedPersons, stagedPersonsL, personCands, List.mem_filter,
      decide_eq_true_eq, dbHasPersonEmail] at hm ⊢
    exact ⟨hm.1.2, hm.2⟩
  · intro hm
    simp only [stagedPersons, stagedPersonsL, personCands, List.mem_filter,
      decide_eq_true_eq, dbHasPersonEmail] at hm ⊢
    exact ⟨⟨hr, hm.1⟩, hm.2⟩

/-- Claim C3 witness: the characterisation applied to the first scenario
row. -/
theorem c3_wit :
    mkPRow "a".data "123 ".data ∈ stagedPersons dbEmpty c3rows
      ↔ truthyS (mkPRow "a".data "123 ".data).email = true
        ∧ ¬ dbHasPersonEmail dbEmpty (emailKey (mkPRow "a".data "123 ".data)) :=
  c3_thm.1 dbEmpty c3rows (mkPRow "a".data "123 ".data) (by decide)

/--
Claim C3 counterexample: importing the 3-row scenario file (row 2 duplicates
the cnic of row 1 up to surrounding whitespace) inserts all three rows and
reports persons_processed = 3; no row is skipped with reason duplicate CNIC,
contradicting the claimed processed = 2, skipped = 1 outcome.
-/
theorem c3_cex :
    (upload_csv dbEmpty c3rows QOutcome.raise).1 = Response.success 3 0 0 3
    ∧ (upload_csv dbEmpty c3rows QOutcome.raise).2.persons.length = 3 := by
  exact ⟨by decide, by decide⟩

/-- The designation handler never touches the person table. -/
theorem handle_designations_persons (db : DB) (rows : List CombinedRow) :
    (handle_designations db rows).2.persons = db.persons := by
  unfold handle_designations
  split <;> rfl

/--
Claim C1 (amended): there are no per-person savepoints: when the staged
person rows violate the cnic unique constraint, the whole batch is aborted;
the import returns an error response with status 500 and the database is
rolled back to its initial state, so no previously staged person of the
batch survives and the row-level error does reach the caller.
-/
theorem c1_thm (db : DB) (rows : List CombinedRow) (q : QOutcome)
    (hne : personCands rows ≠ [])
    (hv : cnicViolation db (stagedPersons db rows)) :
    upload_csv db rows q = (Response.error 500, db) := by
  have hp : (handle_designations db rows).2.persons = db.persons :=
    handle_designations_persons db rows
  have hv2 : cnicViolation (handle_designations db rows).2
      (stagedPersons (handle_designations db rows).2 rows) := by
    unfold cnicViolation stagedPersons at hv ⊢
    rw [hp]
    exact hv
  simp only [upload_csv, stage_phase, handle_persons]
  rw [if_neg hne, if_pos hv2]
  rfl

/-- Claim C1 witness: the duplicate-cnic batch aborts with status 500 on the
empty database. -/
theorem c1_wit :
    upload_csv dbEmpty c1rows QOutcome.raise = (Response.error 500, dbEmpty) :=
  c1_thm dbEmpty c1rows QOutcome.raise (by decide) (by decide)

/--
Claim C1 counterexample: in a two-row batch whose second person duplicates
the cnic of the first, the first person is not left staged and the import
does not continue: the entire import returns an error response and the
database keeps zero persons, contradicting the claimed per-person rollback
and the claim that the row-level error never reaches the caller.
-/
theorem c1_cex :
    upload_csv dbEmpty c1rows QOutcome.raise = (Response.error 500, dbEmpty)
    ∧ (upload_csv dbEmpty c1rows QOutcome.raise).2.persons = [] := by
  exact ⟨by decide, by decide⟩

/--
Claim C9: an exception raised while staging qualifications is contained by
the enclosing try/except of handle_qualifications: the qualification stage
contributes zero inserted records, the Person and Faculty work of the batch
is still committed unchanged, and the caller receives the success-shaped
response.
-/
theorem c9_thm (db : DB) (rows : List CombinedRow) (pmap : List (Str × Nat))
    (fc : Nat) (db3 : DB)
    (h : stage_phase db rows = Except.ok (pmap, fc, db3)) :
    upload_csv db rows QOutcome.raise
      = (Response.success pmap.length fc 0 rows.length, db3) := by
  unfold upload_csv
  rw [h]
  rfl

/-- Claim C9 witness: a one-row batch whose qualification pipeline call
raises still commits its person and faculty rows. -/
theorem c9_wit :
    upload_csv dbEmpty c9rows QOutcome.raise
      = (Response.success 1 1 0 1,
         { persons := [{ id := 1, email := some "a".data, cnic := some "n".data }]
           faculties := [{ code := 5, universityEmail := some "f".data
                           personId := 1, designationId := none }]
           designations := [], quals := [], nextPid := 2, nextDid := 1 }) :=
  c9_thm dbEmpty c9rows [( "a".data, 1)] 1 _ rfl

/-- The qualification handler never touches the person table. -/
theorem handle_qualifications_persons (db : DB) (o : QOutcome) :
    (handle_qualifications db o).2.persons = db.persons := by
  unfold handle_qualifications
  cases o with
  | raise => rfl
  | ok success data =>
    dsimp only
    repeat' split
    all_goals rfl

/-- A successful faculty handler call never touches the person table. -/
theorem handle_faculty_ok_persons (db : DB) (rows : List CombinedRow)
    (pmap : List (Str × Nat)) (cache : List (Str × DesignationRow))
    (n : Nat) (db2 : DB)
    (h : handle_faculty db rows pmap cache = Except.ok (n, db2)) :
    db2.persons = db.persons := by
  unfold handle_faculty at h
  dsimp only at h
  split at h
  · cases h; rfl
  · split at h
    · cases h
    · cases h; rfl

/-- A successful person handler call inserts exactly the staged rows. -/
theorem handle_persons_ok (db : DB) (rows : List CombinedRow)
    (pmap : List (Str × Nat)) (db2 : DB)
    (h : handle_persons db rows = Except.ok (pmap, db2)) :
    db2 = insertPersons db (stagedPersons db rows) := by
  unfold handle_persons at h
  split at h
  · cases h
  · split at h
    · cases h
    · cases h; rfl

/-- Every inserted person row carries the email of its source row. -/
theorem mkPersonRows_email (news : List CombinedRow) :
    ∀ (pid : Nat) (r : CombinedRow), r ∈ news →
      ∃ p ∈ mkPersonRows pid news, p.email = r.email := by
  induction news with
  | nil => intro pid r hr; cases hr
  | cons s rest ih =>
    intro pid r hr
    rcases List.mem_cons.mp hr with hr | hr
    · subst hr
      exact ⟨_, List.mem_cons_self _ _, rfl⟩
    · obtain ⟨p, hp, he⟩ := ih (pid + 1) r hr
      exact ⟨p, List.mem_cons_of_mem _ hp, he⟩

/-- A candidate with a truthy email stores exactly its email key. -/
theorem truthy_email_eq (r : CombinedRow) (h : truthyS r.email = true) :
    r.email = some (emailKey r) := by
  cases he : r.email with
  | none => rw [he] at h; cases h
  | some s => simp [emailKey, he]

/-- Email membership is preserved by appending rows on the right. -/
theorem hasEmailIn_append_left (ps qs : List PersonRow) (e : Str)
    (h : hasEmailIn ps e) : hasEmailIn (ps ++ qs) e := by
  obtain ⟨p, hp, he⟩ := h
  exact ⟨p, List.mem_append_left _ hp, he⟩

/-- Email membership of a freshly inserted row. -/
theorem hasEmailIn_append_right (ps qs : List PersonRow) (e : Str)
    (h : hasEmailIn qs e) : hasEmailIn (ps ++ qs) e := by
  obtain ⟨p, hp, he⟩ := h
  exact ⟨p, List.mem_append_right _ hp, he⟩

/-- The person table after a successful stage phase: the initial table plus
the staged rows. -/
theorem stage_phase_ok_persons (db : DB) (rows : List CombinedRow)
    (pmap : List (Str × Nat)) (fc : Nat) (db3 : DB)
    (h : stage_phase db rows = Except.ok (pmap, fc, db3)) :
    db3.persons = db.persons
      ++ mkPersonRows (handle_designations db rows).2.nextPid
          (stagedPersons db rows) := by
  simp only [stage_phase] at h
  rcases hps : handle_persons (handle_designations db rows).2 rows with e | pd
  · rw [hps] at h; cases h
  · rw [hps] at h
    obtain ⟨pm2, db2⟩ := pd
    dsimp only at h
    rcases hf : handle_faculty db2 rows pm2 (handle_designations db rows).1 with e | nd
    · rw [hf] at h; cases h
    · rw [hf] at h
      obtain ⟨n2, db4⟩ := nd
      dsimp only at h
      cases h
      have h2 := handle_persons_ok _ _ _ _ hps
      have h3 := handle_faculty_ok_persons _ _ _ _ _ _ hf
      subst h2
      rw [h3]
      have hp : (handle_designations db rows).2.persons = db.persons :=
        handle_designations_persons db rows
      have hst : stagedPersons (handle_designations db rows).2 rows
          = stagedPersons db rows := by
        unfold stagedPersons
        rw [hp]
      simp only [insertPersons, hst, hp]

/-- After a committed import every person candidate email is stored. -/
theorem run_covers_emails (db db1 : DB) (rows : List CombinedRow) (q : QOutcome)
    (a b c d : Nat)
    (h : upload_csv db rows q = (Response.success a b c d, db1)) :
    ∀ r ∈ personCands rows, hasEmailIn db1.persons (emailKey r) := by
  intro r hr
  unfold upload_csv at h
  rcases hs : stage_phase db rows with e | pfd
  · rw [hs] at h; cases h
  · rw [hs] at h
    obtain ⟨pm, fc, db3⟩ := pfd
    have hdb1 : db1 = (handle_qualifications db3 q).2 := (congrArg Prod.snd h).symm
    have hdb1p : db1.persons = db3.persons := by
      rw [hdb1, handle_qualifications_persons]
    rw [hdb1p, stage_phase_ok_persons db rows pm fc db3 hs]
    by_cases hm : r ∈ stagedPersons db rows
    · obtain ⟨p, hp, he⟩ := mkPersonRows_email (stagedPersons db rows)
        (handle_designations db rows).2.nextPid r hm
      have ht : truthyS r.email = true := by
        have := List.mem_filter.mp (List.mem_filter.mp hm).1
        exact this.2
      refine hasEmailIn_append_right _ _ _ ⟨p, hp, ?_⟩
      rw [he, truthy_email_eq r ht]
    · have hhas : hasEmailIn db.persons (emailKey r) := by
        by_contra hno
        exact hm (List.mem_filter.mpr ⟨hr, by simpa using hno⟩)
      exact hasEmailIn_append_left _ _ _ hhas

/--
Claim C4 (amended): re-importing the identical batch after a committed
run inserts zero new Person rows: every candidate is skipped as a
duplicate email, so the staged set of the second run is empty and the person
table is unchanged whatever the second run returns.  The second response,
however, does not report processed = 0 with per-row duplicate reasons: it
reports persons_processed as the number of matched existing persons and
carries no skip list (see the counterexample).
-/
theorem c4_thm (db db1 : DB) (rows : List CombinedRow) (q q2 : QOutcome)
    (a b c d : Nat)
    (h : upload_csv db rows q = (Response.success a b c d, db1)) :
    stagedPersons db1 rows = []
    ∧ (upload_csv db1 rows q2).2.persons = db1.persons := by
  have hcov := run_covers_emails db db1 rows q a b c d h
  have hstaged : stagedPersons db1 rows = [] := by
    unfold stagedPersons stagedPersonsL
    rw [List.filter_eq_nil_iff]
    intro r hr
    simp only [decide_eq_true_eq, Decidable.not_not]
    exact hcov r hr
  refine ⟨hstaged, ?_⟩
  unfold upload_csv
  rcases hs : stage_phase db1 rows with e | pfd
  · rfl
  · obtain ⟨pm, fc, db3⟩ := pfd
    simp only
    rw [handle_qualifications_persons, stage_phase_ok_persons db1 rows pm fc db3 hs,
      hstaged]
    simp [mkPersonRows]

/-- Claim C4 witness: the two-row batch imported twice; the second run
leaves the person table unchanged. -/
theorem c4_wit :
    stagedPersons (upload_csv dbEmpty c4rows QOutcome.raise).2 c4rows = []
    ∧ (upload_csv (upload_csv dbEmpty c4rows QOutcome.raise).2 c4rows
        QOutcome.raise).2.persons
      = (upload_csv dbEmpty c4rows QOutcome.raise).2.persons :=
  c4_thm dbEmpty (upload_csv dbEmpty c4rows QOutcome.raise).2 c4rows
    QOutcome.raise QOutcome.raise 2 2 0 2 (by decide)

/--
Claim C4 counterexample: importing the two-row batch twice: the first run
commits with persons_processed = 2; the second run does insert zero new
Person rows and leaves the database unchanged, but its report is
success with persons_processed = 2, faculty_inserted = 0,
qualifications_inserted = 0, total_rows = 2 — not the claimed processed = 0
with skipped = total_rows and per-row duplicate reasons, which the response
shape does not even carry.
-/
theorem c4_cex :
    (upload_csv dbEmpty c4rows QOutcome.raise).1 = Response.success 2 2 0 2
    ∧ (upload_csv (upload_csv dbEmpty c4rows QOutcome.raise).2 c4rows
        QOutcome.raise).1 = Response.success 2 0 0 2
    ∧ (upload_csv (upload_csv dbEmpty c4rows QOutcome.raise).2 c4rows
        QOutcome.raise).2 = (upload_csv dbEmpty c4rows QOutcome.raise).2 := by
  exact ⟨by decide, by decide, by decide⟩

/-- Lookup after inserting the same key. -/
theorem dictLookup_insert_self {α : Type} (m : List (Str × α)) (k : Str) (v : α) :
    dictLookup (dictInsert m k v) k = some v := by
  induction m with
  | nil => simp [dictInsert, dictLookup]
  | cons p rest ih =>
    obtain ⟨k0, v0⟩ := p
    by_cases h : k0 = k
    · simp [dictInsert, dictLookup, h]
    · simp [dictInsert, dictLookup, h, ih]

/-- Lookup after inserting a different key. -/
theorem dictLookup_insert_ne {α : Type} (m : List (Str × α)) (k k2 : Str) (v : α)
    (h : k2 ≠ k) : dictLookup (dictInsert m k v) k2 = dictLookup m k2 := by
  have hk : k ≠ k2 := fun hx => h hx.symm
  induction m with
  | nil => simp [dictInsert, dictLookup, hk]
  | cons p rest ih =>
    obtain ⟨k0, v0⟩ := p
    by_cases h0 : k0 = k
    · subst h0
      simp [dictInsert, dictLookup, hk]
    · simp [dictInsert, dictLookup, h0, ih]

/-- Folding designation rows into a dict leaves foreign keys unchanged. -/
theorem dictLookup_foldl_not_mem (l : List DesignationRow) :
    ∀ (acc : List (Str × DesignationRow)) (k : Str),
      (∀ d ∈ l, d.title ≠ k) →
      dictLookup (l.foldl (fun m d => dictInsert m d.title d) acc) k
        = dictLookup acc k := by
  induction l with
  | nil => intro acc k _; rfl
  | cons d0 rest ih =>
    intro acc k hk
    simp only [List.foldl_cons]
    rw [ih _ k (fun d hd => hk d (List.mem_cons_of_mem _ hd)),
      dictLookup_insert_ne _ _ _ _ (fun hx => hk d0 (List.mem_cons_self _ _) hx.symm)]

/-- Folding designation rows into a dict resolves a title that identifies a
unique row to that row. -/
theorem dictLookup_foldl_unique (l : List DesignationRow) :
    ∀ (acc : List (Str × DesignationRow)) (d : DesignationRow), d ∈ l →
      (∀ d2 ∈ l, d2.title = d.title → d2 = d) →
      dictLookup (l.foldl (fun m d => dictInsert m d.title d) acc) d.title
        = some d := by
  induction l with
  | nil => intro acc d hd; cases hd
  | cons d0 rest ih =>
    intro acc d hd huniq
    simp only [List.foldl_cons]
    by_cases hr : d ∈ rest
    · exact ih _ d hr (fun d2 h2 => huniq d2 (List.mem_cons_of_mem _ h2))
    · have hd0 : d0 = d := by
        rcases List.mem_cons.mp hd with h | h
        · exact h.symm
        · exact absurd h hr
      subst hd0
      have hnone : ∀ d2 ∈ rest, d2.title ≠ d0.title := by
        intro d2 h2 ht
        exact hr ((huniq d2 (List.mem_cons_of_mem _ h2) ht) ▸ h2)
      rw [dictLookup_foldl_not_mem rest _ _ hnone, dictLookup_insert_self]

/-- The titles of the flushed designation rows. -/
theorem mkDesigRows_titles (ts : List Str) :
    ∀ did : Nat, (mkDesigRows did ts).map (fun d => d.title) = ts := by
  induction ts with
  | nil => intro did; rfl
  | cons t rest ih => intro did; simp [mkDesigRows, ih]

/-- Every flushed designation row takes its title from the list and is
academic. -/
theorem mkDesigRows_mem (ts : List Str) :
    ∀ (did : Nat) (d : DesignationRow), d ∈ mkDesigRows did ts →
      d.title ∈ ts ∧ d.dtype = DType.academic := by
  induction ts with
  | nil => intro did d hd; cases hd
  | cons t rest ih =>
    intro did d hd
    rcases List.mem_cons.mp hd with hd | hd
    · subst hd; exact ⟨List.mem_cons_self _ _, rfl⟩
    · obtain ⟨h1, h2⟩ := ih (did + 1) d hd
      exact ⟨List.mem_cons_of_mem _ h1, h2⟩

/-- Every listed title yields a flushed academic designation row. -/
theorem mkDesigRows_exists (ts : List Str) :
    ∀ (did : Nat) (t : Str), t ∈ ts →
      ∃ d ∈ mkDesigRows did ts, d.title = t ∧ d.dtype = DType.academic := by
  induction ts with
  | nil => intro did t ht; cases ht
  | cons t0 rest ih =>
    intro did t ht
    rcases List.mem_cons.mp ht with ht | ht
    · subst ht
      exact ⟨_, List.mem_cons_self _ _, rfl, rfl⟩
    · obtain ⟨d, hd, h1, h2⟩ := ih (did + 1) t ht
      exact ⟨d, List.mem_cons_of_mem _ hd, h1, h2⟩

/-- Counting flushed rows by title counts the titles. -/
theorem mkDesigRows_count (ts : List Str) (T : Str) :
    ∀ did : Nat,
      ((mkDesigRows did ts).filter (fun d => d.title = T)).length
        = (ts.filter (fun t => t = T)).length := by
  induction ts with
  | nil => intro did; rfl
  | cons t rest ih =>
    intro did
    by_cases h : t = T
    · simp [mkDesigRows, List.filter_cons, h, ih]
    · simp [mkDesigRows, List.filter_cons, h, ih]

/-- Filtering a duplicate-free list for one of its members keeps exactly
that member. -/
theorem nodup_filter_single (ts : List Str) (T : Str)
    (hnd : ts.Nodup) (hT : T ∈ ts) :
    ts.filter (fun t => t = T) = [T] := by
  induction ts with
  | nil => cases hT
  | cons t rest ih =>
    rcases List.mem_cons.mp hT with h | h
    · subst h
      have hrest : rest.filter (fun t2 => t2 = T) = [] := by
        rw [List.filter_eq_nil_iff]
        intro t2 h2
        simp only [decide_eq_true_eq]
        intro hx
        exact (List.nodup_cons.mp hnd).1 (hx ▸ h2)
      simp [List.filter_cons, hrest]
    · have hne : t ≠ T := fun hx => (List.nodup_cons.mp hnd).1 (hx ▸ h)
      simp [List.filter_cons, hne, ih (List.nodup_cons.mp hnd).2 h]

/-- Membership in the deduplicated title list. -/
theorem dedupAux_mem (l : List Str) :
    ∀ (seen : List Str) (t : Str),
      t ∈ dedupAux seen l ↔ t ∈ l ∧ t ∉ seen := by
  induction l with
  | nil => intro seen t; simp [dedupAux]
  | cons t0 rest ih =>
    intro seen t
    by_cases h : t0 ∈ seen
    · rw [dedupAux, if_pos h, ih]
      constructor
      · intro hx
        exact ⟨List.mem_cons_of_mem _ hx.1, hx.2⟩
      · intro hx
        rcases List.mem_cons.mp hx.1 with h1 | h1
        · exact absurd (h1 ▸ h) hx.2
        · exact ⟨h1, hx.2⟩
    · rw [dedupAux, if_neg h]
      constructor
      · intro hx
        rcases List.mem_cons.mp hx with h1 | h1
        · exact ⟨h1 ▸ List.mem_cons_self _ _, h1 ▸ h⟩
        · have := (ih (t0 :: seen) t).mp h1
          exact ⟨List.mem_cons_of_mem _ this.1,
            fun hs => this.2 (List.mem_cons_of_mem _ hs)⟩
      · intro hx
        rcases List.mem_cons.mp hx.1 with h1 | h1
        · exact h1 ▸ List.mem_cons_self _ _
        · by_cases ht0 : t = t0
          · exact ht0 ▸ List.mem_cons_self _ _
          · exact List.mem_cons_of_mem _
              ((ih (t0 :: seen) t).mpr
                ⟨h1, fun hs => (List.mem_cons.mp hs).elim ht0 hx.2⟩)

/-- The deduplicated title list has no duplicates. -/
theorem dedupAux_nodup (l : List Str) :
    ∀ seen : List Str, (dedupAux seen l).Nodup := by
  induction l with
  | nil => intro seen; exact List.Pairwise.nil
  | cons t0 rest ih =>
    intro seen
    by_cases h : t0 ∈ seen
    · rw [dedupAux, if_pos h]; exact ih seen
    · rw [dedupAux, if_neg h]
      refine List.nodup_cons.mpr ⟨?_, ih (t0 :: seen)⟩
      intro hx
      exact ((dedupAux_mem rest (t0 :: seen) t0).mp hx).2 (List.mem_cons_self _ _)

/-- The batch title list has no duplicates. -/
theorem batchTitles_nodup (rows : List CombinedRow) : (batchTitles rows).Nodup :=
  dedupAux_nodup _ []

/-- When the batch carries at least one designation title the handler takes
its main branch. -/
theorem handle_designations_eq (db : DB) (rows : List CombinedRow)
    (h : batchTitles rows ≠ []) :
    handle_designations db rows
      = ((desigNewRows db rows).foldl (fun m d => dictInsert m d.title d)
          (desigCacheE db rows),
         { db with
           designations := db.designations ++ desigNewRows db rows
           nextDid := db.nextDid + (desigNewRows db rows).length }) := by
  unfold handle_designations
  rw [if_neg h]

/-- The designation reference of a built faculty candidate comes from the
cache lookup of its row title. -/
theorem build_fac_cand_designation (pmap : List (Str × Nat))
    (cache : List (Str × DesignationRow)) (r : CombinedRow) (f : FacCand) (T : Str)
    (hr : r.academic_designation = some T)
    (hb : build_fac_cand pmap cache r = some f) :
    f.designationId = (dictLookup cache T).map (fun d => d.id) := by
  simp only [build_fac_cand] at hb
  repeat' split at hb
  all_goals cases hb
  all_goals simp [hr] at *
  all_goals simp_all

/--
Claim C5: for every designation title occurring in an import (the pipeline
always pairs it with the academic type), an existing stored row with that
title is reused: no new row is created for it, the cache resolves the title
to that row, and every faculty candidate referencing the title resolves to
that row id.  For a title with no stored row, exactly one row is created
(type academic) even when the title occurs in several rows of the batch, and
every faculty candidate referencing the title resolves to that single new
row id.
-/
theorem c5_thm (db : DB) (rows : List CombinedRow) (T : Str)
    (hnd : (db.designations.map (fun d => d.title)).Nodup)
    (hT : T ∈ batchTitles rows) :
    (∀ d ∈ db.designations, d.title = T →
      countTitle (handle_designations db rows).2 T = countTitle db T
      ∧ dictLookup (handle_designations db rows).1 T = some d
      ∧ ∀ (pmap : List (Str × Nat)) (r : CombinedRow) (f : FacCand),
          r.academic_designation = some T →
          build_fac_cand pmap (handle_designations db rows).1 r = some f →
          f.designationId = some d.id)
    ∧ ((∀ d ∈ db.designations, d.title ≠ T) →
      ∃ dn, countTitle (handle_designations db rows).2 T = 1
        ∧ dn ∈ (handle_designations db rows).2.designations
        ∧ dn.title = T ∧ dn.dtype = DType.academic
        ∧ dictLookup (handle_designations db rows).1 T = some dn
        ∧ ∀ (pmap : List (Str × Nat)) (r : CombinedRow) (f : FacCand),
            r.academic_designation = some T →
            build_fac_cand pmap (handle_designations db rows).1 r = some f →
            f.designationId = some dn.id) := by
  have htne : batchTitles rows ≠ [] := fun hx => by rw [hx] at hT; cases hT
  have hCE : desigCacheE db rows
      = (desigExisting db rows).foldl (fun m d => dictInsert m d.title d) [] := rfl
  have hNR : desigNewRows db rows
      = mkDesigRows db.nextDid (desigNewTitles db rows) := rfl
  rw [handle_designations_eq db rows htne]
  constructor
  · -- reuse of an existing row
    intro d hd hdT
    have huniqE : ∀ d2 ∈ desigExisting db rows, d2.title = d.title → d2 = d := by
      intro d2 h2 ht
      exact List.inj_on_of_nodup_map hnd (List.mem_filter.mp h2).1 hd ht
    have hdE : d ∈ desigExisting db rows := by
      refine List.mem_filter.mpr ⟨hd, ?_⟩
      simp [hdT, hT]
    have hlookE : dictLookup (desigCacheE db rows) T = some d := by
      rw [hCE, ← hdT]
      exact dictLookup_foldl_unique (desigExisting db rows) [] d hdE huniqE
    have hTnotNew : ∀ d2 ∈ desigNewRows db rows, d2.title ≠ T := by
      intro d2 h2 ht
      rw [hNR] at h2
      have hmem := (mkDesigRows_mem _ _ _ h2).1
      have := (List.mem_filter.mp hmem).2
      rw [ht] at this
      simp only [decide_eq_true_eq] at this
      rw [hlookE] at this
      cases this
    have hlook : dictLookup
        ((desigNewRows db rows).foldl (fun m d => dictInsert m d.title d)
          (desigCacheE db rows)) T = some d := by
      rw [dictLookup_foldl_not_mem _ _ _ hTnotNew, hlookE]
    refine ⟨?_, hlook, ?_⟩
    · unfold countTitle
      simp only [List.filter_append, List.length_append]
      have hz : (desigNewRows db rows).filter (fun d2 => d2.title = T) = [] := by
        rw [List.filter_eq_nil_iff]
        intro d2 h2
        simp only [decide_eq_true_eq]
        exact hTnotNew d2 h2
      rw [hz]
      rfl
    · intro pmap r f hr hb
      rw [build_fac_cand_designation pmap _ r f T hr hb, hlook]
      rfl
  · -- creation of a missing row
    intro hno
    have hnoE : ∀ d2 ∈ desigExisting db rows, d2.title ≠ T :=
      fun d2 h2 => hno d2 (List.mem_filter.mp h2).1
    have hlookE : dictLookup (desigCacheE db rows) T = none := by
      rw [hCE, dictLookup_foldl_not_mem _ _ _ hnoE]
      rfl
    have hTnew : T ∈ desigNewTitles db rows := by
      refine List.mem_filter.mpr ⟨hT, ?_⟩
      simp [hlookE]
    obtain ⟨dn, hdn, hdnT, hdnA⟩ :=
      mkDesigRows_exists (desigNewTitles db rows) db.nextDid T hTnew
    rw [← hNR] at hdn
    have hnewNodup : (desigNewTitles db rows).Nodup :=
      (batchTitles_nodup rows).filter _
    have huniqN : ∀ d2 ∈ desigNewRows db rows, d2.title = dn.title → d2 = dn := by
      intro d2 h2 ht
      have hmapnd : ((desigNewRows db rows).map (fun d2 => d2.title)).Nodup := by
        rw [hNR, mkDesigRows_titles]
        exact hnewNodup
      exact List.inj_on_of_nodup_map hmapnd h2 hdn ht
    have hlookN : dictLookup
        ((desigNewRows db rows).foldl (fun m d => dictInsert m d.title d)
          (desigCacheE db rows)) T = some dn := by
      rw [← hdnT]
      exact dictLookup_foldl_unique (desigNewRows db rows) _ dn hdn huniqN
    refine ⟨dn, ?_, ?_, hdnT, hdnA, hlookN, ?_⟩
    · unfold countTitle
      simp only [List.filter_append, List.length_append]
      have hz : db.designations.filter (fun d2 => d2.title = T) = [] := by
        rw [List.filter_eq_nil_iff]
        intro d2 h2
        simp only [decide_eq_true_eq]
        exact hno d2 h2
      rw [hz, hNR, mkDesigRows_count, nodup_filter_single _ _ hnewNodup hTnew]
      rfl
    · exact List.mem_append_right _ hdn
    · intro pmap r f hr hb
      rw [build_fac_cand_designation pmap _ r f T hr hb, hlookN]
      rfl

/-- Claim C5 witness: a stored designation titled T is reused by the cache
of a batch referencing T. -/
theorem c5_wit :
    dictLookup (handle_designations c5db c5rows).1 "T".data
      = some { id := 5, title := "T".data, dtype := DType.academic } :=
  ((c5_thm c5db c5rows "T".data (by decide) (by decide)).1
    { id := 5, title := "T".data, dtype := DType.academic }
    (by decide) (by decide)).2.1

end HrCsv
